import Mathlib

/-!
Verification of the deployment-bucket plugin (`src/lib/index.js`).

The plugin reconciles an S3 deployment bucket against a desired state.  We
shallowly embed the JavaScript source: the remote bucket is a `World`
record, provider-call failures are injected through a `Faults` record
(`none` = the call succeeds, `some msg` = the provider rejects the call
with error message `msg`), and every provider call made during a run is
recorded in an `S3Call` trace.  Each JavaScript method of
`DeploymentBucketPlugin` becomes a Lean function of the same name.
-/

set_option linter.unusedVariables false
set_option linter.unusedTactic false
set_option linter.unreachableTactic false

/-- JavaScript runtime values, as far as the plugin's configuration
handling needs them: `undefined`, `null`, booleans, numbers (the configs
involved only ever hold integers), strings, arrays and plain objects. -/
inductive Js where
| undefined : Js
| null : Js
| bool : Bool → Js
| num : Int → Js
| str : String → Js
| arr : List Js → Js
| obj : List (String × Js) → Js

/-- JavaScript truthiness: `undefined`, `null`, `false`, `0` and the empty
string are falsy; every array and object is truthy. -/
def Js.truthy : Js → Bool
  | .undefined => false
  | .null => false
  | .bool b => b
  | .num n => n != 0
  | .str s => s != ""
  | .arr _ => true
  | .obj _ => true

/-- First binding of `key` in an object's field list. -/
def Js.findField : List (String × Js) → String → Option Js
  | [], _ => none
  | (k, v) :: rest, key => if k == key then some v else Js.findField rest key

/-- Property access `v[key]`: a missing key, or access on a non-object,
yields `undefined` (string/array wrapper properties such as `.length` are
not modelled; the plugin only indexes configuration objects). -/
def Js.index (v : Js) (key : String) : Js :=
  match v with
  | .obj fs =>
    match Js.findField fs key with
    | some x => x
    | none => .undefined
  | _ => .undefined

/-- `String.prototype.split` on a dot: accumulate characters until a dot. -/
def splitDotAux : List Char → List Char → List String
  | [], acc => [String.mk acc.reverse]
  | c :: cs, acc =>
    if c == '.' then String.mk acc.reverse :: splitDotAux cs []
    else splitDotAux cs (c :: acc)

/-- `path.split('.').filter(Boolean)` from line 7 of the source: split on
dots and drop the empty segments (the only falsy strings). -/
def jsSplitDot (path : String) : List String :=
  (splitDotAux path.toList []).filter (fun t => t != "")

/-- The walk inside `get` (line 7): `every(step => !(step && !(obj =
obj[step])))` visits the segments left to right — each step replaces the
accumulator by `obj[step]` and short-circuits to the default as soon as
the new value is falsy; if every step stays truthy the final value is
returned. -/
def getGo (dflt : Js) : Js → List String → Js
  | obj, [] => obj
  | obj, step :: rest =>
    let v := Js.index obj step
    if v.truthy then getGo dflt v rest else dflt

/-- The configuration lookup helper `get` (source lines 6–8). -/
def get (obj : Js) (path : String) (dflt : Js) : Js :=
  getGo dflt obj (jsSplitDot path)

/-- `true` iff some step of the `get` walk — including the final value —
is falsy. -/
def walkFalsy : Js → List String → Bool
  | _, [] => false
  | obj, step :: rest =>
    let v := Js.index obj step
    if v.truthy then walkFalsy v rest else true

mutual

/-- `JSON.stringify`, as used by `putBucketPolicy` (line 169) to turn the
configured policy object into the provider's wire format. -/
def Js.stringify : Js → String
  | .undefined => "null"
  | .null => "null"
  | .bool true => "true"
  | .bool false => "false"
  | .num n => toString n
  | .str s => "\"" ++ s ++ "\""
  | .arr xs => "[" ++ Js.stringifyList xs ++ "]"
  | .obj fs => "\x7b" ++ Js.stringifyFields fs ++ "\x7d"

def Js.stringifyList : List Js → String
  | [] => ""
  | [x] => Js.stringify x
  | x :: xs => Js.stringify x ++ "," ++ Js.stringifyList xs

def Js.stringifyFields : List (String × Js) → String
  | [] => ""
  | [(k, v)] => "\"" ++ k ++ "\":" ++ Js.stringify v
  | (k, v) :: fs => "\"" ++ k ++ "\":" ++ Js.stringify v ++ "," ++ Js.stringifyFields fs

end

mutual

/-- Structural value equality on `Js`; models `===` for the primitive
comparisons the plugin performs (it never compares two objects). -/
def Js.beq : Js → Js → Bool
  | .undefined, .undefined => true
  | .null, .null => true
  | .bool a, .bool b => a == b
  | .num a, .num b => a == b
  | .str a, .str b => a == b
  | .arr a, .arr b => Js.beqList a b
  | .obj a, .obj b => Js.beqFields a b
  | _, _ => false

def Js.beqList : List Js → List Js → Bool
  | [], [] => true
  | a :: as', b :: bs' => Js.beq a b && Js.beqList as' bs'
  | _, _ => false

def Js.beqFields : List (String × Js) → List (String × Js) → Bool
  | [], [] => true
  | (k₁, v₁) :: as', (k₂, v₂) :: bs' => k₁ == k₂ && Js.beq v₁ v₂ && Js.beqFields as' bs'
  | _, _ => false

end

instance : BEq Js := ⟨Js.beq⟩

/-- `Array.prototype.includes` on a JS array value (non-arrays never reach
`.includes` in the plugin: the `get` default is `[]`). -/
def jsIncludes (v : Js) (x : Js) : Bool :=
  match v with
  | .arr xs => xs.any (fun y => Js.beq y x)
  | _ => false

/-- The remote state of the deployment bucket, one field per facet the
plugin reads or writes.  `versioningStatus`/`accelerationStatus` model the
optional `Status` field of the corresponding `get…` responses. -/
structure World where
  present : Bool := false
  hasEncryption : Bool := false
  versioningStatus : Option String := none
  accelerationStatus : Option String := none
  policyWire : Option String := none
deriving Repr, DecidableEq

/-- Fault injection for the provider: `none` means the call succeeds,
`some msg` means the provider rejects it with error message `msg`.
`headBucket` covers probe failures beyond plain not-found (e.g. access
denied); `wait` covers waiter timeouts and poll errors. -/
structure Faults where
  headBucket : Option String := none
  createBucket : Option String := none
  wait : Option String := none
  getEncryption : Option String := none
  putEncryption : Option String := none
  getVersioning : Option String := none
  putVersioning : Option String := none
  getAcceleration : Option String := none
  putAcceleration : Option String := none
  putPolicy : Option String := none
deriving Repr, DecidableEq

/-- A fault model on which every provider call succeeds. -/
def noFaults : Faults := {}

/-- The plugin's effective configuration at reconciliation time:
`this.deploymentBucket.name` / `.serverSideEncryption` plus
`this.config.versioning` / `.accelerate` / `.policy` as normalised by the
constructor (booleans default to `false`, `policy` to absent). -/
structure Config where
  bucketName : String
  serverSideEncryption : Option String := none
  versioning : Bool := false
  accelerate : Bool := false
  policy : Option Js := none

/-- One provider call, with the arguments the plugin passes.  The
`putBucketVersioning` / `putBucketAccelerateConfiguration` events carry
the `Status` string the plugin sends; `putBucketPolicy` carries the
serialized policy; `putBucketEncryption` carries the SSE algorithm (the
`KMSMasterKeyID` the source passes is always `undefined`).
`getBucketPolicy` exists in the S3 API but is never issued by the plugin;
it is included so that "the current policy is never read" is statable. -/
inductive S3Call where
| headBucket : String → S3Call
| createBucket : String → S3Call
| waitFor : String → String → S3Call
| getBucketEncryption : String → S3Call
| putBucketEncryption : String → String → S3Call
| getBucketVersioning : String → S3Call
| putBucketVersioning : String → String → S3Call
| getBucketAccelerateConfiguration : String → S3Call
| putBucketAccelerateConfiguration : String → String → S3Call
| getBucketPolicy : String → S3Call
| putBucketPolicy : String → String → S3Call
deriving Repr, DecidableEq

/-- JS truthiness of an optional string (absent and empty are falsy). -/
def optStrTruthy : Option String → Bool
  | none => false
  | some s => s != ""

/-- The check on lines 117 and 145 of the source:
`response.Status && response.Status == 'Enabled'`. -/
def statusEnabled : Option String → Bool
  | none => false
  | some s => s != "" && s == "Enabled"

/-- `bucketExists` (lines 40–51): `headBucket`, `true` on success, `false`
on any failure.  The probe succeeds iff the bucket is present and no
fault is injected. -/
def bucketExists (w : World) (f : Faults) (name : String) : Bool :=
  match f.headBucket with
  | some _ => false
  | none => w.present

/-- `waitFor` (lines 53–68): the SDK waiter; on failure it logs
`Unable to wait for …` and returns `false`; on success it returns `true`.
Result: (return value, log lines). -/
def waitFor (w : World) (f : Faults) (name state : String) : Bool × List String :=
  match f.wait with
  | some m => (false, ["Unable to wait for \x27" ++ state ++ "\x27 - " ++ m])
  | none => (true, [])

/-- `createBucket` (lines 70–77): `createBucket` with `ACL: 'private'`;
the provider error propagates to the caller. -/
def createBucket (w : World) (f : Faults) (name : String) : Except String World :=
  match f.createBucket with
  | some m => .error m
  | none => .ok { w with present := true }

/-- `hasBucketEncryption` (lines 79–90): `getBucketEncryption`, `true` on
success, `false` on any failure (the provider reports an unconfigured
bucket as an error, so "unconfigured" and "query failed" both land in the
`catch`). -/
def hasBucketEncryption (w : World) (f : Faults) (name : String) : Bool :=
  match f.getEncryption with
  | some _ => false
  | none => w.hasEncryption

/-- `putBucketEncryption` (lines 92–109): sets the default SSE rule. -/
def putBucketEncryption (w : World) (f : Faults) (name sseAlgorithm : String) :
    Except String World :=
  match f.putEncryption with
  | some m => .error m
  | none => .ok { w with hasEncryption := true }

/-- `hasBucketVersioning` (lines 110–125): `getBucketVersioning`, then
`response.Status && response.Status == 'Enabled'`; `false` on error. -/
def hasBucketVersioning (w : World) (f : Faults) (name : String) : Bool :=
  match f.getVersioning with
  | some _ => false
  | none => statusEnabled w.versioningStatus

/-- The `Status` string sent by the two put calls (lines 131 and 159):
`'Enabled'` when the configured boolean is true, `'Suspended'` otherwise. -/
def statusWord (status : Bool) : String :=
  if status then "Enabled" else "Suspended"

/-- `putBucketVersioning` (lines 127–136). -/
def putBucketVersioning (w : World) (f : Faults) (name : String) (status : Bool) :
    Except String World :=
  match f.putVersioning with
  | some m => .error m
  | none => .ok { w with versioningStatus := some (statusWord status) }

/-- `hasBucketAcceleration` (lines 138–153): same pattern as versioning. -/
def hasBucketAcceleration (w : World) (f : Faults) (name : String) : Bool :=
  match f.getAcceleration with
  | some _ => false
  | none => statusEnabled w.accelerationStatus

/-- `putBucketAcceleration` (lines 155–164). -/
def putBucketAcceleration (w : World) (f : Faults) (name : String) (status : Bool) :
    Except String World :=
  match f.putAcceleration with
  | some m => .error m
  | none => .ok { w with accelerationStatus := some (statusWord status) }

/-- `putBucketPolicy` (lines 166–172): `Policy: JSON.stringify(policy)`. -/
def putBucketPolicy (w : World) (f : Faults) (name : String) (policy : Js) :
    Except String World :=
  match f.putPolicy with
  | some m => .error m
  | none => .ok { w with policyWire := some policy.stringify }

/-- The evolving state of one `applyDeploymentBucket` run: the remote
world, the provider-call trace, the `serverless.cli.log` lines, and the
pending exception (`some msg` once a provider call has thrown — the
remaining statements of the `try` block are then skipped). -/
structure RunState where
  world : World
  calls : List S3Call
  logs : List String
  thrown : Option String
deriving Repr, DecidableEq

/-- Record provider calls and log lines, in order. -/
def RunState.emit (s : RunState) (cs : List S3Call) (ls : List String) : RunState :=
  { s with calls := s.calls ++ cs, logs := s.logs ++ ls }

/-- The initial state of a run against remote world `w`. -/
def initState (w : World) : RunState :=
  { world := w, calls := [], logs := [], thrown := none }

/-- Step 1 of `applyDeploymentBucket` (lines 176–183): probe existence;
if present log `Using deployment bucket`, otherwise log, create the
bucket (a creation failure throws) and run the existence waiter. -/
def existenceStep (cfg : Config) (f : Faults) (s : RunState) : RunState :=
  if s.thrown.isSome then s else
  let name := cfg.bucketName
  let s := s.emit [.headBucket name] []
  if bucketExists s.world f name then
    s.emit [] ["Using deployment bucket \x27" ++ name ++ "\x27"]
  else
    let s := s.emit [] ["Creating deployment bucket \x27" ++ name ++ "\x27..."]
    match createBucket s.world f name with
    | .error m => { s.emit [.createBucket name] [] with thrown := some m }
    | .ok w =>
      let s := { s.emit [.createBucket name] [] with world := w }
      let wr := waitFor s.world f name ("bucketExists")
      s.emit [.waitFor name ("bucketExists")] wr.snd

/-- Step 2 (lines 185–191): only when `serverSideEncryption` is truthy
and `hasBucketEncryption` reports false, apply the SSE configuration. -/
def encryptionStep (cfg : Config) (f : Faults) (s : RunState) : RunState :=
  if s.thrown.isSome then s else
  if optStrTruthy cfg.serverSideEncryption then
    let name := cfg.bucketName
    let alg := cfg.serverSideEncryption.getD ("")
    let s := s.emit [.getBucketEncryption name] []
    if hasBucketEncryption s.world f name then s
    else
      match putBucketEncryption s.world f name alg with
      | .error m => { s.emit [.putBucketEncryption name alg] [] with thrown := some m }
      | .ok w =>
        { s.emit [.putBucketEncryption name alg]
            ["Applied SSE (" ++ alg ++ ") to deployment bucket"] with world := w }
  else s

/-- Step 3 (lines 193–201): if the observed versioning status differs
from `config.versioning`, drive it to the configured value. -/
def versioningStep (cfg : Config) (f : Faults) (s : RunState) : RunState :=
  if s.thrown.isSome then s else
  let name := cfg.bucketName
  let s := s.emit [.getBucketVersioning name] []
  if hasBucketVersioning s.world f name != cfg.versioning then
    match putBucketVersioning s.world f name cfg.versioning with
    | .error m =>
      { s.emit [.putBucketVersioning name (statusWord cfg.versioning)] [] with thrown := some m }
    | .ok w =>
      { s.emit [.putBucketVersioning name (statusWord cfg.versioning)]
          [if cfg.versioning then "Enabled versioning on deployment bucket"
           else "Suspended versioning on deployment bucket"] with world := w }
  else s

/-- Step 4 (lines 203–211): same as step 3 for transfer acceleration. -/
def accelerationStep (cfg : Config) (f : Faults) (s : RunState) : RunState :=
  if s.thrown.isSome then s else
  let name := cfg.bucketName
  let s := s.emit [.getBucketAccelerateConfiguration name] []
  if hasBucketAcceleration s.world f name != cfg.accelerate then
    match putBucketAcceleration s.world f name cfg.accelerate with
    | .error m =>
      { s.emit [.putBucketAccelerateConfiguration name (statusWord cfg.accelerate)] []
          with thrown := some m }
    | .ok w =>
      { s.emit [.putBucketAccelerateConfiguration name (statusWord cfg.accelerate)]
          [if cfg.accelerate then "Enabled acceleration on deployment bucket"
           else "Suspended acceleration on deployment bucket"] with world := w }
  else s

/-- Step 5 (lines 213–216): if `config.policy` is truthy, overwrite the
bucket policy unconditionally (no read of the current policy). -/
def policyStep (cfg : Config) (f : Faults) (s : RunState) : RunState :=
  if s.thrown.isSome then s else
  match cfg.policy with
  | none => s
  | some p =>
    if p.truthy then
      let name := cfg.bucketName
      match putBucketPolicy s.world f name p with
      | .error m => { s.emit [.putBucketPolicy name p.stringify] [] with thrown := some m }
      | .ok w =>
        { s.emit [.putBucketPolicy name p.stringify]
            ["Applied deployment bucket policy"] with world := w }
    else s

/-- The `try` block of `applyDeploymentBucket` (lines 175–217): the five
facet steps in their fixed order. -/
def runBody (cfg : Config) (f : Faults) (w : World) : RunState :=
  policyStep cfg f (accelerationStep cfg f (versioningStep cfg f
    (encryptionStep cfg f (existenceStep cfg f (initState w)))))

/-- The `console.error` block emitted by the `catch` (line 219). -/
def errorBlock (msg : String) : String :=
  "\n-------- Deployment Bucket Error --------\n" ++ msg

/-- The outcome of one `applyDeploymentBucket` run: final remote world,
provider-call trace, status log lines, and the `console.error` output. -/
structure RunResult where
  world : World
  calls : List S3Call
  logs : List String
  errors : List String
deriving Repr, DecidableEq

/-- `applyDeploymentBucket` (lines 174–221): run the five steps under the
single `try`/`catch`; a thrown error is reported once through
`console.error` and is not re-raised, so the method always resolves. -/
def applyDeploymentBucket (cfg : Config) (w : World) (f : Faults) : RunResult :=
  let b := runBody cfg f w
  { world := b.world, calls := b.calls, logs := b.logs,
    errors := match b.thrown with
      | some m => [errorBlock m]
      | none => [] }

/-- The constructor's hook-registration decision (lines 11–38): read
`provider.deploymentBucket` (or `provider.deploymentBucketObject` on old
host versions) and `custom.deploymentBucket` out of the service tree;
bail out when `enabled` is strictly `false`; register the
`before:aws:common:validate:validate` hook only when the bucket name is
truthy and the processed commands do not include `'package'`.  The
`semver.satisfies(version, '>=2.10.0')` test on the host version is an
external library call and enters as the boolean `versionGte210`. -/
def constructorHookRegistered (versionGte210 : Bool) (serverless : Js) : Bool :=
  let configPath :=
    if versionGte210 then "provider.deploymentBucket" else "provider.deploymentBucketObject"
  let service := serverless.index ("service")
  let deploymentBucket := get service configPath (.obj [])
  let config := get service ("custom.deploymentBucket") (.obj [])
  if !(Js.beq (config.index ("enabled")) .undefined) && Js.beq (config.index ("enabled")) (.bool false)
  then false
  else if (deploymentBucket.index ("name")).truthy then
    let serverlessCommand := get serverless ("processedInput.commands") (.arr [])
    !(jsIncludes serverlessCommand (.str ("package")))
  else false

/-- Predicate selectors over the call trace, one per mutation or read the
claims count. -/
def S3Call.isCreate : S3Call → Bool
  | .createBucket _ => true
  | _ => false

def S3Call.isWait : S3Call → Bool
  | .waitFor _ _ => true
  | _ => false

def S3Call.isPutEncryption : S3Call → Bool
  | .putBucketEncryption _ _ => true
  | _ => false

def S3Call.isPutVersioning : S3Call → Bool
  | .putBucketVersioning _ _ => true
  | _ => false

def S3Call.isPutAcceleration : S3Call → Bool
  | .putBucketAccelerateConfiguration _ _ => true
  | _ => false

def S3Call.isGetPolicy : S3Call → Bool
  | .getBucketPolicy _ => true
  | _ => false

def S3Call.isPutPolicy : S3Call → Bool
  | .putBucketPolicy _ _ => true
  | _ => false

def S3Call.isGetVersioning : S3Call → Bool
  | .getBucketVersioning _ => true
  | _ => false

def S3Call.isGetAcceleration : S3Call → Bool
  | .getBucketAccelerateConfiguration _ => true
  | _ => false

def S3Call.isFacetOp : S3Call → Bool
  | .getBucketEncryption _ => true
  | .putBucketEncryption _ _ => true
  | .getBucketVersioning _ => true
  | .putBucketVersioning _ _ => true
  | .getBucketAccelerateConfiguration _ => true
  | .putBucketAccelerateConfiguration _ _ => true
  | .getBucketPolicy _ => true
  | .putBucketPolicy _ _ => true
  | _ => false

/-! ### Basic simp lemmas about the run-state plumbing -/

@[simp] theorem RunState.emit_world (s : RunState) (cs : List S3Call) (ls : List String) :
    (s.emit cs ls).world = s.world := rfl

@[simp] theorem RunState.emit_calls (s : RunState) (cs : List S3Call) (ls : List String) :
    (s.emit cs ls).calls = s.calls ++ cs := rfl

@[simp] theorem RunState.emit_logs (s : RunState) (cs : List S3Call) (ls : List String) :
    (s.emit cs ls).logs = s.logs ++ ls := rfl

@[simp] theorem RunState.emit_thrown (s : RunState) (cs : List S3Call) (ls : List String) :
    (s.emit cs ls).thrown = s.thrown := rfl

@[simp] theorem bucketExists_eq (w : World) (f : Faults) (name : String) :
    bucketExists w f name = (f.headBucket.isNone && w.present) := by
  cases h : f.headBucket <;> simp [bucketExists, h]

/-- The log lines produced by one `waitFor` invocation. -/
def waitFailLogs (f : Faults) (state : String) : List String :=
  match f.wait with
  | some m => ["Unable to wait for \x27" ++ state ++ "\x27 - " ++ m]
  | none => []

@[simp] theorem waitFor_eq (w : World) (f : Faults) (name state : String) :
    waitFor w f name state = (f.wait.isNone, waitFailLogs f state) := by
  cases h : f.wait <;> simp [waitFor, waitFailLogs, h]

@[simp] theorem hasBucketEncryption_eq (w : World) (f : Faults) (name : String) :
    hasBucketEncryption w f name = (f.getEncryption.isNone && w.hasEncryption) := by
  cases h : f.getEncryption <;> simp [hasBucketEncryption, h]

@[simp] theorem hasBucketVersioning_eq (w : World) (f : Faults) (name : String) :
    hasBucketVersioning w f name = (f.getVersioning.isNone && statusEnabled w.versioningStatus) := by
  cases h : f.getVersioning <;> simp [hasBucketVersioning, h]

@[simp] theorem hasBucketAcceleration_eq (w : World) (f : Faults) (name : String) :
    hasBucketAcceleration w f name
      = (f.getAcceleration.isNone && statusEnabled w.accelerationStatus) := by
  cases h : f.getAcceleration <;> simp [hasBucketAcceleration, h]

@[simp] theorem statusEnabled_statusWord (b : Bool) :
    statusEnabled (some (statusWord b)) = b := by
  cases b <;> decide

/-! ### Per-step characterization lemmas

One lemma per reachable branch of each facet step, used to unfold a run
branch by branch. -/

theorem existenceStep_skip (cfg : Config) (f : Faults) (s : RunState) (m : String)
    (h : s.thrown = some m) : existenceStep cfg f s = s := by
  simp [existenceStep, h]

theorem existenceStep_present (cfg : Config) (f : Faults) (s : RunState)
    (hth : s.thrown = none) (h : bucketExists s.world f cfg.bucketName = true) :
    existenceStep cfg f s
      = s.emit [.headBucket cfg.bucketName]
          ["Using deployment bucket \x27" ++ cfg.bucketName ++ "\x27"] := by
  simp only [bucketExists_eq] at h
  simp [existenceStep, hth, h, RunState.emit]

theorem existenceStep_create_ok (cfg : Config) (f : Faults) (s : RunState)
    (hth : s.thrown = none) (h : bucketExists s.world f cfg.bucketName = false)
    (hcr : f.createBucket = none) :
    existenceStep cfg f s
      = { world := { s.world with present := true },
          calls := s.calls ++ [.headBucket cfg.bucketName, .createBucket cfg.bucketName,
            .waitFor cfg.bucketName ("bucketExists")],
          logs := s.logs ++ ["Creating deployment bucket \x27" ++ cfg.bucketName ++ "\x27..."]
            ++ waitFailLogs f ("bucketExists"),
          thrown := none } := by
  simp only [bucketExists_eq] at h
  simp [existenceStep, hth, h, createBucket, hcr, RunState.emit]

theorem existenceStep_create_err (cfg : Config) (f : Faults) (s : RunState) (m : String)
    (hth : s.thrown = none) (h : bucketExists s.world f cfg.bucketName = false)
    (hcr : f.createBucket = some m) :
    existenceStep cfg f s
      = { world := s.world,
          calls := s.calls ++ [.headBucket cfg.bucketName, .createBucket cfg.bucketName],
          logs := s.logs ++ ["Creating deployment bucket \x27" ++ cfg.bucketName ++ "\x27..."],
          thrown := some m } := by
  simp only [bucketExists_eq] at h
  simp [existenceStep, hth, h, createBucket, hcr, RunState.emit]

theorem encryptionStep_skip (cfg : Config) (f : Faults) (s : RunState) (m : String)
    (h : s.thrown = some m) : encryptionStep cfg f s = s := by
  simp [encryptionStep, h]

theorem encryptionStep_not_set (cfg : Config) (f : Faults) (s : RunState)
    (h : optStrTruthy cfg.serverSideEncryption = false) :
    encryptionStep cfg f s = s := by
  simp [encryptionStep, h]

theorem encryptionStep_already (cfg : Config) (f : Faults) (s : RunState)
    (hth : s.thrown = none) (hsse : optStrTruthy cfg.serverSideEncryption = true)
    (h : hasBucketEncryption s.world f cfg.bucketName = true) :
    encryptionStep cfg f s = s.emit [.getBucketEncryption cfg.bucketName] [] := by
  simp only [hasBucketEncryption_eq] at h
  simp [encryptionStep, hth, hsse, h]

theorem encryptionStep_put_ok (cfg : Config) (f : Faults) (s : RunState)
    (hth : s.thrown = none) (hsse : optStrTruthy cfg.serverSideEncryption = true)
    (h : hasBucketEncryption s.world f cfg.bucketName = false)
    (hput : f.putEncryption = none) :
    encryptionStep cfg f s
      = { world := { s.world with hasEncryption := true },
          calls := s.calls ++ [.getBucketEncryption cfg.bucketName,
            .putBucketEncryption cfg.bucketName (cfg.serverSideEncryption.getD (""))],
          logs := s.logs ++ ["Applied SSE (" ++ cfg.serverSideEncryption.getD ("")
            ++ ") to deployment bucket"],
          thrown := none } := by
  simp only [hasBucketEncryption_eq] at h
  simp [encryptionStep, hth, hsse, h, putBucketEncryption, hput, RunState.emit]

theorem encryptionStep_put_err (cfg : Config) (f : Faults) (s : RunState) (m : String)
    (hth : s.thrown = none) (hsse : optStrTruthy cfg.serverSideEncryption = true)
    (h : hasBucketEncryption s.world f cfg.bucketName = false)
    (hput : f.putEncryption = some m) :
    encryptionStep cfg f s
      = { world := s.world,
          calls := s.calls ++ [.getBucketEncryption cfg.bucketName,
            .putBucketEncryption cfg.bucketName (cfg.serverSideEncryption.getD (""))],
          logs := s.logs,
          thrown := some m } := by
  simp only [hasBucketEncryption_eq] at h
  simp [encryptionStep, hth, hsse, h, putBucketEncryption, hput, RunState.emit]

theorem versioningStep_skip (cfg : Config) (f : Faults) (s : RunState) (m : String)
    (h : s.thrown = some m) : versioningStep cfg f s = s := by
  simp [versioningStep, h]

theorem versioningStep_noop (cfg : Config) (f : Faults) (s : RunState)
    (hth : s.thrown = none)
    (h : hasBucketVersioning s.world f cfg.bucketName = cfg.versioning) :
    versioningStep cfg f s = s.emit [.getBucketVersioning cfg.bucketName] [] := by
  simp only [hasBucketVersioning_eq] at h
  simp [versioningStep, hth, h]

theorem versioningStep_put_ok (cfg : Config) (f : Faults) (s : RunState)
    (hth : s.thrown = none)
    (h : hasBucketVersioning s.world f cfg.bucketName ≠ cfg.versioning)
    (hput : f.putVersioning = none) :
    versioningStep cfg f s
      = { world := { s.world with versioningStatus := some (statusWord cfg.versioning) },
          calls := s.calls ++ [.getBucketVersioning cfg.bucketName,
            .putBucketVersioning cfg.bucketName (statusWord cfg.versioning)],
          logs := s.logs ++ [if cfg.versioning then "Enabled versioning on deployment bucket"
            else "Suspended versioning on deployment bucket"],
          thrown := none } := by
  simp only [hasBucketVersioning_eq] at h
  simp [versioningStep, hth, bne_iff_ne, h, putBucketVersioning, hput, RunState.emit]

theorem versioningStep_put_err (cfg : Config) (f : Faults) (s : RunState) (m : String)
    (hth : s.thrown = none)
    (h : hasBucketVersioning s.world f cfg.bucketName ≠ cfg.versioning)
    (hput : f.putVersioning = some m) :
    versioningStep cfg f s
      = { world := s.world,
          calls := s.calls ++ [.getBucketVersioning cfg.bucketName,
            .putBucketVersioning cfg.bucketName (statusWord cfg.versioning)],
          logs := s.logs,
          thrown := some m } := by
  simp only [hasBucketVersioning_eq] at h
  simp [versioningStep, hth, bne_iff_ne, h, putBucketVersioning, hput, RunState.emit]

theorem accelerationStep_skip (cfg : Config) (f : Faults) (s : RunState) (m : String)
    (h : s.thrown = some m) : accelerationStep cfg f s = s := by
  simp [accelerationStep, h]

theorem accelerationStep_noop (cfg : Config) (f : Faults) (s : RunState)
    (hth : s.thrown = none)
    (h : hasBucketAcceleration s.world f cfg.bucketName = cfg.accelerate) :
    accelerationStep cfg f s = s.emit [.getBucketAccelerateConfiguration cfg.bucketName] [] := by
  simp only [hasBucketAcceleration_eq] at h
  simp [accelerationStep, hth, h]

theorem accelerationStep_put_ok (cfg : Config) (f : Faults) (s : RunState)
    (hth : s.thrown = none)
    (h : hasBucketAcceleration s.world f cfg.bucketName ≠ cfg.accelerate)
    (hput : f.putAcceleration = none) :
    accelerationStep cfg f s
      = { world := { s.world with accelerationStatus := some (statusWord cfg.accelerate) },
          calls := s.calls ++ [.getBucketAccelerateConfiguration cfg.bucketName,
            .putBucketAccelerateConfiguration cfg.bucketName (statusWord cfg.accelerate)],
          logs := s.logs ++ [if cfg.accelerate then "Enabled acceleration on deployment bucket"
            else "Suspended acceleration on deployment bucket"],
          thrown := none } := by
  simp only [hasBucketAcceleration_eq] at h
  simp [accelerationStep, hth, bne_iff_ne, h, putBucketAcceleration, hput, RunState.emit]

theorem accelerationStep_put_err (cfg : Config) (f : Faults) (s : RunState) (m : String)
    (hth : s.thrown = none)
    (h : hasBucketAcceleration s.world f cfg.bucketName ≠ cfg.accelerate)
    (hput : f.putAcceleration = some m) :
    accelerationStep cfg f s
      = { world := s.world,
          calls := s.calls ++ [.getBucketAccelerateConfiguration cfg.bucketName,
            .putBucketAccelerateConfiguration cfg.bucketName (statusWord cfg.accelerate)],
          logs := s.logs,
          thrown := some m } := by
  simp only [hasBucketAcceleration_eq] at h
  simp [accelerationStep, hth, bne_iff_ne, h, putBucketAcceleration, hput, RunState.emit]

theorem policyStep_skip (cfg : Config) (f : Faults) (s : RunState) (m : String)
    (h : s.thrown = some m) : policyStep cfg f s = s := by
  simp [policyStep, h]

theorem policyStep_none (cfg : Config) (f : Faults) (s : RunState)
    (h : cfg.policy = none) : policyStep cfg f s = s := by
  simp [policyStep, h]

theorem policyStep_falsy (cfg : Config) (f : Faults) (s : RunState) (p : Js)
    (h : cfg.policy = some p) (hp : p.truthy = false) : policyStep cfg f s = s := by
  simp [policyStep, h, hp]

theorem policyStep_put_ok (cfg : Config) (f : Faults) (s : RunState) (p : Js)
    (hth : s.thrown = none) (h : cfg.policy = some p) (hp : p.truthy = true)
    (hput : f.putPolicy = none) :
    policyStep cfg f s
      = { world := { s.world with policyWire := some p.stringify },
          calls := s.calls ++ [.putBucketPolicy cfg.bucketName p.stringify],
          logs := s.logs ++ ["Applied deployment bucket policy"],
          thrown := none } := by
  simp [policyStep, hth, h, hp, putBucketPolicy, hput, RunState.emit]

theorem policyStep_put_err (cfg : Config) (f : Faults) (s : RunState) (p : Js) (m : String)
    (hth : s.thrown = none) (h : cfg.policy = some p) (hp : p.truthy = true)
    (hput : f.putPolicy = some m) :
    policyStep cfg f s
      = { world := s.world,
          calls := s.calls ++ [.putBucketPolicy cfg.bucketName p.stringify],
          logs := s.logs,
          thrown := some m } := by
  simp [policyStep, hth, h, hp, putBucketPolicy, hput, RunState.emit]

/-! ### Frame lemmas: what each step can never contribute

Each step only appends its own kind of provider calls, only appends log
lines, and only writes its own facet of the world — under every fault
model. -/

theorem existenceStep_filter (cfg : Config) (f : Faults) (s : RunState) (p : S3Call → Bool)
    (h1 : ∀ a, p (.headBucket a) = false) (h2 : ∀ a, p (.createBucket a) = false)
    (h3 : ∀ a b, p (.waitFor a b) = false) :
    (existenceStep cfg f s).calls.filter p = s.calls.filter p := by
  unfold existenceStep createBucket
  cases hf : f.createBucket <;> simp only [hf]
  all_goals repeat' split
  all_goals try simp_all [RunState.emit, List.filter_append, h1, h2, h3]
  all_goals repeat' split
  all_goals try simp_all [RunState.emit, List.filter_append, h1, h2, h3]

theorem encryptionStep_filter (cfg : Config) (f : Faults) (s : RunState) (p : S3Call → Bool)
    (h1 : ∀ a, p (.getBucketEncryption a) = false)
    (h2 : ∀ a b, p (.putBucketEncryption a b) = false) :
    (encryptionStep cfg f s).calls.filter p = s.calls.filter p := by
  unfold encryptionStep putBucketEncryption
  cases hf : f.putEncryption <;> simp only [hf]
  all_goals repeat' split
  all_goals try simp_all [RunState.emit, List.filter_append, h1, h2]
  all_goals repeat' split
  all_goals try simp_all [RunState.emit, List.filter_append, h1, h2]

theorem versioningStep_filter (cfg : Config) (f : Faults) (s : RunState) (p : S3Call → Bool)
    (h1 : ∀ a, p (.getBucketVersioning a) = false)
    (h2 : ∀ a b, p (.putBucketVersioning a b) = false) :
    (versioningStep cfg f s).calls.filter p = s.calls.filter p := by
  unfold versioningStep putBucketVersioning
  cases hf : f.putVersioning <;> simp only [hf]
  all_goals repeat' split
  all_goals try simp_all [RunState.emit, List.filter_append, h1, h2]
  all_goals repeat' split
  all_goals try simp_all [RunState.emit, List.filter_append, h1, h2]

theorem accelerationStep_filter (cfg : Config) (f : Faults) (s : RunState) (p : S3Call → Bool)
    (h1 : ∀ a, p (.getBucketAccelerateConfiguration a) = false)
    (h2 : ∀ a b, p (.putBucketAccelerateConfiguration a b) = false) :
    (accelerationStep cfg f s).calls.filter p = s.calls.filter p := by
  unfold accelerationStep putBucketAcceleration
  cases hf : f.putAcceleration <;> simp only [hf]
  all_goals repeat' split
  all_goals try simp_all [RunState.emit, List.filter_append, h1, h2]
  all_goals repeat' split
  all_goals try simp_all [RunState.emit, List.filter_append, h1, h2]

theorem policyStep_filter (cfg : Config) (f : Faults) (s : RunState) (p : S3Call → Bool)
    (h1 : ∀ a b, p (.putBucketPolicy a b) = false) :
    (policyStep cfg f s).calls.filter p = s.calls.filter p := by
  unfold policyStep putBucketPolicy
  cases hf : f.putPolicy <;> simp only [hf]
  all_goals repeat' split
  all_goals try simp_all [RunState.emit, List.filter_append, h1]
  all_goals repeat' split
  all_goals try simp_all [RunState.emit, List.filter_append, h1]

theorem existenceStep_logs_mono (cfg : Config) (f : Faults) (s : RunState) (x : String)
    (hx : x ∈ s.logs) : x ∈ (existenceStep cfg f s).logs := by
  unfold existenceStep createBucket
  cases hf : f.createBucket <;> simp only [hf]
  all_goals repeat' split
  all_goals try simp_all [RunState.emit, hx]
  all_goals repeat' split
  all_goals try simp_all [RunState.emit, hx]

theorem encryptionStep_logs_mono (cfg : Config) (f : Faults) (s : RunState) (x : String)
    (hx : x ∈ s.logs) : x ∈ (encryptionStep cfg f s).logs := by
  unfold encryptionStep putBucketEncryption
  cases hf : f.putEncryption <;> simp only [hf]
  all_goals repeat' split
  all_goals try simp_all [RunState.emit, hx]
  all_goals repeat' split
  all_goals try simp_all [RunState.emit, hx]

theorem versioningStep_logs_mono (cfg : Config) (f : Faults) (s : RunState) (x : String)
    (hx : x ∈ s.logs) : x ∈ (versioningStep cfg f s).logs := by
  unfold versioningStep putBucketVersioning
  cases hf : f.putVersioning <;> simp only [hf]
  all_goals repeat' split
  all_goals try simp_all [RunState.emit, hx]
  all_goals repeat' split
  all_goals try simp_all [RunState.emit, hx]

theorem accelerationStep_logs_mono (cfg : Config) (f : Faults) (s : RunState) (x : String)
    (hx : x ∈ s.logs) : x ∈ (accelerationStep cfg f s).logs := by
  unfold accelerationStep putBucketAcceleration
  cases hf : f.putAcceleration <;> simp only [hf]
  all_goals repeat' split
  all_goals try simp_all [RunState.emit, hx]
  all_goals repeat' split
  all_goals try simp_all [RunState.emit, hx]

theorem policyStep_logs_mono (cfg : Config) (f : Faults) (s : RunState) (x : String)
    (hx : x ∈ s.logs) : x ∈ (policyStep cfg f s).logs := by
  unfold policyStep putBucketPolicy
  cases hf : f.putPolicy <;> simp only [hf]
  all_goals repeat' split
  all_goals try simp_all [RunState.emit, hx]
  all_goals repeat' split
  all_goals try simp_all [RunState.emit, hx]

theorem existenceStep_world_frame (cfg : Config) (f : Faults) (s : RunState) :
    (existenceStep cfg f s).world.hasEncryption = s.world.hasEncryption
    ∧ (existenceStep cfg f s).world.versioningStatus = s.world.versioningStatus
    ∧ (existenceStep cfg f s).world.accelerationStatus = s.world.accelerationStatus := by
  unfold existenceStep createBucket
  cases hf : f.createBucket <;> simp only [hf]
  all_goals repeat' split
  all_goals try simp_all [RunState.emit]
  all_goals repeat' split
  all_goals try simp_all [RunState.emit]

theorem encryptionStep_world_frame (cfg : Config) (f : Faults) (s : RunState) :
    (encryptionStep cfg f s).world.present = s.world.present
    ∧ (encryptionStep cfg f s).world.versioningStatus = s.world.versioningStatus
    ∧ (encryptionStep cfg f s).world.accelerationStatus = s.world.accelerationStatus := by
  unfold encryptionStep putBucketEncryption
  cases hf : f.putEncryption <;> simp only [hf]
  all_goals repeat' split
  all_goals try simp_all [RunState.emit]
  all_goals repeat' split
  all_goals try simp_all [RunState.emit]

theorem encryptionStep_enc_mono (cfg : Config) (f : Faults) (s : RunState)
    (h : s.world.hasEncryption = true) :
    (encryptionStep cfg f s).world.hasEncryption = true := by
  unfold encryptionStep putBucketEncryption
  cases hf : f.putEncryption <;> simp only [hf]
  all_goals repeat' split
  all_goals try simp_all [RunState.emit, h]
  all_goals repeat' split
  all_goals try simp_all [RunState.emit, h]

theorem versioningStep_world_frame (cfg : Config) (f : Faults) (s : RunState) :
    (versioningStep cfg f s).world.present = s.world.present
    ∧ (versioningStep cfg f s).world.hasEncryption = s.world.hasEncryption
    ∧ (versioningStep cfg f s).world.accelerationStatus = s.world.accelerationStatus := by
  unfold versioningStep putBucketVersioning
  cases hf : f.putVersioning <;> simp only [hf]
  all_goals repeat' split
  all_goals try simp_all [RunState.emit]
  all_goals repeat' split
  all_goals try simp_all [RunState.emit]

theorem accelerationStep_world_frame (cfg : Config) (f : Faults) (s : RunState) :
    (accelerationStep cfg f s).world.present = s.world.present
    ∧ (accelerationStep cfg f s).world.hasEncryption = s.world.hasEncryption
    ∧ (accelerationStep cfg f s).world.versioningStatus = s.world.versioningStatus := by
  unfold accelerationStep putBucketAcceleration
  cases hf : f.putAcceleration <;> simp only [hf]
  all_goals repeat' split
  all_goals try simp_all [RunState.emit]
  all_goals repeat' split
  all_goals try simp_all [RunState.emit]

theorem policyStep_world_frame (cfg : Config) (f : Faults) (s : RunState) :
    (policyStep cfg f s).world.present = s.world.present
    ∧ (policyStep cfg f s).world.hasEncryption = s.world.hasEncryption
    ∧ (policyStep cfg f s).world.versioningStatus = s.world.versioningStatus
    ∧ (policyStep cfg f s).world.accelerationStatus = s.world.accelerationStatus := by
  unfold policyStep putBucketPolicy
  cases hf : f.putPolicy <;> simp only [hf]
  all_goals repeat' split
  all_goals try simp_all [RunState.emit]
  all_goals repeat' split
  all_goals try simp_all [RunState.emit]

theorem existenceStep_thrown_none (cfg : Config) (f : Faults) (s : RunState)
    (hth : s.thrown = none) (hcr : f.createBucket = none) :
    (existenceStep cfg f s).thrown = none := by
  unfold existenceStep createBucket
  cases hf : f.createBucket <;> simp only [hf]
  all_goals repeat' split
  all_goals try simp_all [RunState.emit]

theorem encryptionStep_thrown_none (cfg : Config) (f : Faults) (s : RunState)
    (hth : s.thrown = none) (hput : f.putEncryption = none) :
    (encryptionStep cfg f s).thrown = none := by
  unfold encryptionStep putBucketEncryption
  cases hf : f.putEncryption <;> simp only [hf]
  all_goals repeat' split
  all_goals try simp_all [RunState.emit]

theorem versioningStep_thrown_none (cfg : Config) (f : Faults) (s : RunState)
    (hth : s.thrown = none) (hput : f.putVersioning = none) :
    (versioningStep cfg f s).thrown = none := by
  unfold versioningStep putBucketVersioning
  cases hf : f.putVersioning <;> simp only [hf]
  all_goals repeat' split
  all_goals try simp_all [RunState.emit]

theorem accelerationStep_thrown_none (cfg : Config) (f : Faults) (s : RunState)
    (hth : s.thrown = none) (hput : f.putAcceleration = none) :
    (accelerationStep cfg f s).thrown = none := by
  unfold accelerationStep putBucketAcceleration
  cases hf : f.putAcceleration <;> simp only [hf]
  all_goals repeat' split
  all_goals try simp_all [RunState.emit]

theorem policyStep_thrown_none (cfg : Config) (f : Faults) (s : RunState)
    (hth : s.thrown = none) (hput : f.putPolicy = none) :
    (policyStep cfg f s).thrown = none := by
  unfold policyStep putBucketPolicy
  cases hf : f.putPolicy <;> simp only [hf]
  all_goals repeat' split
  all_goals try simp_all [RunState.emit]

theorem encryptionStep_calls_take (cfg : Config) (f : Faults) (s : RunState) (n : Nat)
    (hn : n ≤ s.calls.length) :
    (encryptionStep cfg f s).calls.take n = s.calls.take n := by
  unfold encryptionStep putBucketEncryption
  cases hf : f.putEncryption <;> simp only [hf]
  all_goals repeat' split
  all_goals try simp_all [RunState.emit, List.take_append_of_le_length, hn]

theorem versioningStep_calls_take (cfg : Config) (f : Faults) (s : RunState) (n : Nat)
    (hn : n ≤ s.calls.length) :
    (versioningStep cfg f s).calls.take n = s.calls.take n := by
  unfold versioningStep putBucketVersioning
  cases hf : f.putVersioning <;> simp only [hf]
  all_goals repeat' split
  all_goals try simp_all [RunState.emit, List.take_append_of_le_length, hn]

theorem accelerationStep_calls_take (cfg : Config) (f : Faults) (s : RunState) (n : Nat)
    (hn : n ≤ s.calls.length) :
    (accelerationStep cfg f s).calls.take n = s.calls.take n := by
  unfold accelerationStep putBucketAcceleration
  cases hf : f.putAcceleration <;> simp only [hf]
  all_goals repeat' split
  all_goals try simp_all [RunState.emit, List.take_append_of_le_length, hn]

theorem policyStep_calls_take (cfg : Config) (f : Faults) (s : RunState) (n : Nat)
    (hn : n ≤ s.calls.length) :
    (policyStep cfg f s).calls.take n = s.calls.take n := by
  unfold policyStep putBucketPolicy
  cases hf : f.putPolicy <;> simp only [hf]
  all_goals repeat' split
  all_goals try simp_all [RunState.emit, List.take_append_of_le_length, hn]

theorem encryptionStep_calls_len (cfg : Config) (f : Faults) (s : RunState) :
    s.calls.length ≤ (encryptionStep cfg f s).calls.length := by
  unfold encryptionStep putBucketEncryption
  cases hf : f.putEncryption <;> simp only [hf]
  all_goals repeat' split
  all_goals try simp_all [RunState.emit]

theorem versioningStep_calls_len (cfg : Config) (f : Faults) (s : RunState) :
    s.calls.length ≤ (versioningStep cfg f s).calls.length := by
  unfold versioningStep putBucketVersioning
  cases hf : f.putVersioning <;> simp only [hf]
  all_goals repeat' split
  all_goals try simp_all [RunState.emit]

theorem accelerationStep_calls_len (cfg : Config) (f : Faults) (s : RunState) :
    s.calls.length ≤ (accelerationStep cfg f s).calls.length := by
  unfold accelerationStep putBucketAcceleration
  cases hf : f.putAcceleration <;> simp only [hf]
  all_goals repeat' split
  all_goals try simp_all [RunState.emit]

theorem policyStep_calls_len (cfg : Config) (f : Faults) (s : RunState) :
    s.calls.length ≤ (policyStep cfg f s).calls.length := by
  unfold policyStep putBucketPolicy
  cases hf : f.putPolicy <;> simp only [hf]
  all_goals repeat' split
  all_goals try simp_all [RunState.emit]

@[simp] theorem applyDeploymentBucket_calls (cfg : Config) (w : World) (f : Faults) :
    (applyDeploymentBucket cfg w f).calls = (runBody cfg f w).calls := rfl

@[simp] theorem applyDeploymentBucket_logs (cfg : Config) (w : World) (f : Faults) :
    (applyDeploymentBucket cfg w f).logs = (runBody cfg f w).logs := rfl

@[simp] theorem applyDeploymentBucket_world (cfg : Config) (w : World) (f : Faults) :
    (applyDeploymentBucket cfg w f).world = (runBody cfg f w).world := rfl

/-! ### The claims -/

/-- C6: the reader operations `bucketExists` and `hasBucketEncryption`
return a plain boolean (they are total functions into `Bool`; the JS
`catch` that makes this so is part of their embedding): any injected
query failure — access denied on the probe, any error on the encryption
query — yields `false`, an absent bucket or unconfigured encryption also
yields `false`, and a failed query is therefore indistinguishable from an
unconfigured facet. -/
theorem reader_failures_yield_false (w : World) (f : Faults) (name msg : String) :
    bucketExists w { f with headBucket := some msg } name = false
    ∧ bucketExists { w with present := false } f name = false
    ∧ hasBucketEncryption w { f with getEncryption := some msg } name = false
    ∧ hasBucketEncryption { w with hasEncryption := false } f name = false
    ∧ hasBucketEncryption w { f with getEncryption := some msg } name
        = hasBucketEncryption { w with hasEncryption := false } noFaults name := by
  simp [noFaults]

/-- C7: `hasBucketVersioning` returns `true` iff the versioning query
succeeds (no injected fault) and the reported status is exactly
`'Enabled'`; a `'Suspended'` status, a missing status field and a query
error all yield `false`; `hasBucketAcceleration` satisfies the same
property for the acceleration facet. -/
theorem versioning_true_iff_enabled (w : World) (f : Faults) (name msg s : String) :
    hasBucketVersioning w f name = (f.getVersioning.isNone && statusEnabled w.versioningStatus)
    ∧ statusEnabled (some s) = (s == ("Enabled"))
    ∧ statusEnabled (some ("Suspended")) = false
    ∧ statusEnabled none = false
    ∧ hasBucketVersioning w { f with getVersioning := some msg } name = false
    ∧ hasBucketAcceleration w f name
        = (f.getAcceleration.isNone && statusEnabled w.accelerationStatus)
    ∧ hasBucketAcceleration w { f with getAcceleration := some msg } name = false := by
  refine ⟨hasBucketVersioning_eq w f name, ?_, by decide, rfl, by simp,
    hasBucketAcceleration_eq w f name, by simp⟩
  by_cases h : s = ("Enabled") <;> simp [statusEnabled, h]

/-- C4: the whole five-step sequence sits under one `try`/`catch`:
`applyDeploymentBucket` is a total function into `RunResult` (the thrown
error of the body is consumed by the `catch`, so the entrypoint always
returns normally), and at most one error block — carrying the failure's
message — is ever reported.  A failure at any of the five steps aborts
every remaining step: for each of the `createBucket`, encryption,
versioning, acceleration and policy mutations, a run on which that
mutation is rejected produces a call trace that stops exactly at the
failing call (so no later facet operation executes) together with the
single error block holding the failure detail. -/
theorem run_failure_isolated (cfg : Config) (w : World) (f : Faults) (msg : String)
    (fs : List (String × Js)) :
    ((applyDeploymentBucket cfg w f).errors = []
      ∨ ∃ m, (applyDeploymentBucket cfg w f).errors = [errorBlock m])
    ∧ (applyDeploymentBucket cfg w f).errors.length ≤ 1
    ∧ (applyDeploymentBucket cfg { w with present := false }
          { f with createBucket := some msg }).calls
        = [.headBucket cfg.bucketName, .createBucket cfg.bucketName]
    ∧ (applyDeploymentBucket cfg { w with present := false }
          { f with createBucket := some msg }).errors = [errorBlock msg]
    ∧ (applyDeploymentBucket { cfg with serverSideEncryption := some ("AES256") }
          { w with present := true, hasEncryption := false }
          { noFaults with putEncryption := some msg }).calls
        = [.headBucket cfg.bucketName, .getBucketEncryption cfg.bucketName,
           .putBucketEncryption cfg.bucketName ("AES256")]
    ∧ (applyDeploymentBucket { cfg with serverSideEncryption := some ("AES256") }
          { w with present := true, hasEncryption := false }
          { noFaults with putEncryption := some msg }).errors = [errorBlock msg]
    ∧ (applyDeploymentBucket { cfg with serverSideEncryption := none, versioning := true }
          { w with present := true, versioningStatus := none }
          { noFaults with putVersioning := some msg }).calls
        = [.headBucket cfg.bucketName, .getBucketVersioning cfg.bucketName,
           .putBucketVersioning cfg.bucketName ("Enabled")]
    ∧ (applyDeploymentBucket { cfg with serverSideEncryption := none, versioning := true }
          { w with present := true, versioningStatus := none }
          { noFaults with putVersioning := some msg }).errors = [errorBlock msg]
    ∧ (applyDeploymentBucket
          { cfg with serverSideEncryption := none, versioning := false, accelerate := true }
          { w with present := true, versioningStatus := none, accelerationStatus := none }
          { noFaults with putAcceleration := some msg }).calls
        = [.headBucket cfg.bucketName, .getBucketVersioning cfg.bucketName,
           .getBucketAccelerateConfiguration cfg.bucketName,
           .putBucketAccelerateConfiguration cfg.bucketName ("Enabled")]
    ∧ (applyDeploymentBucket
          { cfg with serverSideEncryption := none, versioning := false, accelerate := true }
          { w with present := true, versioningStatus := none, accelerationStatus := none }
          { noFaults with putAcceleration := some msg }).errors = [errorBlock msg]
    ∧ (applyDeploymentBucket
          { cfg with serverSideEncryption := none, versioning := false, accelerate := false,
                     policy := some (Js.obj fs) }
          { w with present := true, versioningStatus := none, accelerationStatus := none }
          { noFaults with putPolicy := some msg }).calls
        = [.headBucket cfg.bucketName, .getBucketVersioning cfg.bucketName,
           .getBucketAccelerateConfiguration cfg.bucketName,
           .putBucketPolicy cfg.bucketName (Js.obj fs).stringify]
    ∧ (applyDeploymentBucket
          { cfg with serverSideEncryption := none, versioning := false, accelerate := false,
                     policy := some (Js.obj fs) }
          { w with present := true, versioningStatus := none, accelerationStatus := none }
          { noFaults with putPolicy := some msg }).errors = [errorBlock msg] := by
  have h1 := existenceStep_create_err cfg { f with createBucket := some msg }
    (initState { w with present := false }) msg rfl (by simp [initState]) rfl
  simp only [initState] at h1
  refine ⟨?_, ?_, ?_, ?_, ?_, ?_, ?_, ?_, ?_, ?_, ?_, ?_⟩
  · cases h : (runBody cfg f w).thrown <;> simp [applyDeploymentBucket, h]
  · cases h : (runBody cfg f w).thrown <;> simp [applyDeploymentBucket, h]
  · simp [applyDeploymentBucket, runBody, h1, initState,
      policyStep, accelerationStep, versioningStep, encryptionStep]
  · simp [applyDeploymentBucket, runBody, h1, initState,
      policyStep, accelerationStep, versioningStep, encryptionStep]
  all_goals
    simp [applyDeploymentBucket, runBody, policyStep, accelerationStep, versioningStep,
      encryptionStep, existenceStep, initState, noFaults, optStrTruthy, statusEnabled,
      statusWord, Js.truthy, putBucketEncryption, putBucketVersioning,
      putBucketAcceleration, putBucketPolicy, errorBlock]
/-- C2: whenever the existence probe reports the bucket absent (and
creation itself is not rejected), the run's provider-call trace starts
with exactly `headBucket`, `createBucket`, `waitFor` — so the single
`createBucket` and the single `waitFor` precede every encryption,
versioning, acceleration and policy operation — and these are the only
`createBucket`/`waitFor` calls of the run; when the probe reports the
bucket present, the run performs no `createBucket` and no `waitFor` at
all. -/
theorem create_then_wait_gate (cfg : Config) (w : World) (f : Faults) :
    (bucketExists w f cfg.bucketName = false → f.createBucket = none →
      (applyDeploymentBucket cfg w f).calls.take 3
          = [.headBucket cfg.bucketName, .createBucket cfg.bucketName,
             .waitFor cfg.bucketName ("bucketExists")]
        ∧ (applyDeploymentBucket cfg w f).calls.filter S3Call.isCreate
            = [.createBucket cfg.bucketName]
        ∧ (applyDeploymentBucket cfg w f).calls.filter S3Call.isWait
            = [.waitFor cfg.bucketName ("bucketExists")])
    ∧ (bucketExists w f cfg.bucketName = true →
      (applyDeploymentBucket cfg w f).calls.filter S3Call.isCreate = []
        ∧ (applyDeploymentBucket cfg w f).calls.filter S3Call.isWait = []) := by
  constructor
  · intro habs hcr
    have h1 := existenceStep_create_ok cfg f (initState w) rfl (by simpa [initState] using habs) hcr
    have l1 : 3 ≤ ((existenceStep cfg f (initState w)).calls).length := by
      rw [h1]; simp [initState]
    have l2 := le_trans l1 (encryptionStep_calls_len cfg f _)
    have l3 := le_trans l2 (versioningStep_calls_len cfg f _)
    have l4 := le_trans l3 (accelerationStep_calls_len cfg f _)
    refine ⟨?_, ?_, ?_⟩
    · rw [applyDeploymentBucket_calls, runBody,
        policyStep_calls_take cfg f _ 3 l4,
        accelerationStep_calls_take cfg f _ 3 l3,
        versioningStep_calls_take cfg f _ 3 l2,
        encryptionStep_calls_take cfg f _ 3 l1, h1]
      simp [initState]
    · rw [applyDeploymentBucket_calls, runBody,
        policyStep_filter cfg f _ S3Call.isCreate (fun a b => rfl),
        accelerationStep_filter cfg f _ S3Call.isCreate (fun a => rfl) (fun a b => rfl),
        versioningStep_filter cfg f _ S3Call.isCreate (fun a => rfl) (fun a b => rfl),
        encryptionStep_filter cfg f _ S3Call.isCreate (fun a => rfl) (fun a b => rfl), h1]
      simp [initState, S3Call.isCreate, S3Call.isWait]
    · rw [applyDeploymentBucket_calls, runBody,
        policyStep_filter cfg f _ S3Call.isWait (fun a b => rfl),
        accelerationStep_filter cfg f _ S3Call.isWait (fun a => rfl) (fun a b => rfl),
        versioningStep_filter cfg f _ S3Call.isWait (fun a => rfl) (fun a b => rfl),
        encryptionStep_filter cfg f _ S3Call.isWait (fun a => rfl) (fun a b => rfl), h1]
      simp [initState, S3Call.isCreate, S3Call.isWait]
  · intro hpres
    have h1 := existenceStep_present cfg f (initState w) rfl (by simpa [initState] using hpres)
    constructor
    · rw [applyDeploymentBucket_calls, runBody,
        policyStep_filter cfg f _ S3Call.isCreate (fun a b => rfl),
        accelerationStep_filter cfg f _ S3Call.isCreate (fun a => rfl) (fun a b => rfl),
        versioningStep_filter cfg f _ S3Call.isCreate (fun a => rfl) (fun a b => rfl),
        encryptionStep_filter cfg f _ S3Call.isCreate (fun a => rfl) (fun a b => rfl), h1]
      simp [initState, RunState.emit, S3Call.isCreate]
    · rw [applyDeploymentBucket_calls, runBody,
        policyStep_filter cfg f _ S3Call.isWait (fun a b => rfl),
        accelerationStep_filter cfg f _ S3Call.isWait (fun a => rfl) (fun a b => rfl),
        versioningStep_filter cfg f _ S3Call.isWait (fun a => rfl) (fun a b => rfl),
        encryptionStep_filter cfg f _ S3Call.isWait (fun a => rfl) (fun a b => rfl), h1]
      simp [initState, RunState.emit, S3Call.isWait]

theorem encryptionStep_putEnc_filter (cfg : Config) (f : Faults) (s : RunState)
    (hth : s.thrown = none) :
    (encryptionStep cfg f s).calls.filter S3Call.isPutEncryption
      = s.calls.filter S3Call.isPutEncryption
        ++ (if optStrTruthy cfg.serverSideEncryption
              && !(f.getEncryption.isNone && s.world.hasEncryption)
            then [S3Call.putBucketEncryption cfg.bucketName (cfg.serverSideEncryption.getD (""))]
            else []) := by
  unfold encryptionStep putBucketEncryption
  cases hf : f.putEncryption <;> simp only [hf]
  all_goals repeat' split
  all_goals try simp_all [RunState.emit, List.filter_append, S3Call.isPutEncryption]
  all_goals repeat' split
  all_goals try simp_all [RunState.emit, List.filter_append, S3Call.isPutEncryption]

/-- C3: `putBucketEncryption` is issued in a run if and only if
`serverSideEncryption` is configured (a truthy, i.e. non-empty, algorithm
string) and the `hasBucketEncryption` reader reports `false`; in
particular, when encryption is already configured and the query succeeds,
`putBucketEncryption` is never issued — whatever algorithm is requested —
and no operation of the plugin ever turns encryption off (the
`hasEncryption` facet can only go from `false` to `true`). -/
theorem encryption_applied_iff_unset (cfg : Config) (w : World) (f : Faults) :
    (f.createBucket = none →
      (applyDeploymentBucket cfg w f).calls.filter S3Call.isPutEncryption
        = (if optStrTruthy cfg.serverSideEncryption
              && !(hasBucketEncryption w f cfg.bucketName)
           then [S3Call.putBucketEncryption cfg.bucketName (cfg.serverSideEncryption.getD (""))]
           else []))
    ∧ ((applyDeploymentBucket cfg { w with hasEncryption := true }
          { f with createBucket := none, getEncryption := none }).calls.filter
            S3Call.isPutEncryption = [])
    ∧ (applyDeploymentBucket cfg { w with hasEncryption := true } f).world.hasEncryption
        = true := by
  have main : ∀ (w' : World) (f' : Faults), f'.createBucket = none →
      (applyDeploymentBucket cfg w' f').calls.filter S3Call.isPutEncryption
        = (if optStrTruthy cfg.serverSideEncryption
              && !(f'.getEncryption.isNone && w'.hasEncryption)
           then [S3Call.putBucketEncryption cfg.bucketName (cfg.serverSideEncryption.getD (""))]
           else []) := by
    intro w' f' hcr
    have hth1 := existenceStep_thrown_none cfg f' (initState w') rfl hcr
    have hw1 := (existenceStep_world_frame cfg f' (initState w')).1
    rw [applyDeploymentBucket_calls, runBody,
      policyStep_filter cfg f' _ S3Call.isPutEncryption (fun a b => rfl),
      accelerationStep_filter cfg f' _ S3Call.isPutEncryption (fun a => rfl) (fun a b => rfl),
      versioningStep_filter cfg f' _ S3Call.isPutEncryption (fun a => rfl) (fun a b => rfl),
      encryptionStep_putEnc_filter cfg f' _ hth1,
      existenceStep_filter cfg f' _ S3Call.isPutEncryption
        (fun a => rfl) (fun a => rfl) (fun a b => rfl), hw1]
    simp [initState]
  refine ⟨fun hcr => by rw [main w f hcr, hasBucketEncryption_eq], ?_, ?_⟩
  · rw [main _ _ rfl]
    simp
  · rw [applyDeploymentBucket_world, runBody,
      (policyStep_world_frame cfg f _).2.1,
      (accelerationStep_world_frame cfg f _).2.1,
      (versioningStep_world_frame cfg f _).2.1]
    refine encryptionStep_enc_mono cfg f _ ?_
    rw [(existenceStep_world_frame cfg f _).1]
    simp [initState]

theorem policyStep_putPol_filter (cfg : Config) (f : Faults) (s : RunState)
    (hth : s.thrown = none) :
    (policyStep cfg f s).calls.filter S3Call.isPutPolicy
      = s.calls.filter S3Call.isPutPolicy
        ++ (match cfg.policy with
            | some p =>
              if p.truthy then [S3Call.putBucketPolicy cfg.bucketName p.stringify] else []
            | none => []) := by
  unfold policyStep putBucketPolicy
  cases hf : f.putPolicy <;> simp only [hf]
  all_goals repeat' split
  all_goals try simp_all [RunState.emit, List.filter_append, S3Call.isPutPolicy]
  all_goals repeat' split
  all_goals try simp_all [RunState.emit, List.filter_append, S3Call.isPutPolicy]

/-- C5: whenever the configured policy is set (any truthy value — every
policy document object is truthy), the run issues exactly one
`putBucketPolicy`, carrying the `JSON.stringify` serialization of the
document, for every remote state alike (the conclusion does not depend on
`w`, and no `getBucketPolicy` read is ever issued, so the current remote
policy cannot influence it); when the policy is absent nothing is
issued.  The run is taken with no injected failure on the mutations that
precede the policy step, so that the policy step is reached. -/
theorem policy_overwritten_unconditionally (cfg : Config) (w : World) (f : Faults)
    (fs : List (String × Js)) :
    ((applyDeploymentBucket cfg w
        { f with createBucket := none, putEncryption := none,
                 putVersioning := none, putAcceleration := none }).calls.filter S3Call.isPutPolicy
      = (match cfg.policy with
         | some p => if p.truthy then [S3Call.putBucketPolicy cfg.bucketName p.stringify] else []
         | none => []))
    ∧ ((applyDeploymentBucket { cfg with policy := some (Js.obj fs) } w
        { f with createBucket := none, putEncryption := none,
                 putVersioning := none, putAcceleration := none }).calls.filter S3Call.isPutPolicy
      = [S3Call.putBucketPolicy cfg.bucketName (Js.obj fs).stringify])
    ∧ (applyDeploymentBucket cfg w f).calls.filter S3Call.isGetPolicy = [] := by
  have main : ∀ (cfg' : Config),
      (applyDeploymentBucket cfg' w
        { f with createBucket := none, putEncryption := none,
                 putVersioning := none, putAcceleration := none }).calls.filter S3Call.isPutPolicy
      = (match cfg'.policy with
         | some p => if p.truthy then [S3Call.putBucketPolicy cfg'.bucketName p.stringify] else []
         | none => []) := by
    intro cfg'
    have th1 := existenceStep_thrown_none cfg'
      { f with createBucket := none, putEncryption := none,
                 putVersioning := none, putAcceleration := none } (initState w) rfl rfl
    have th2 := encryptionStep_thrown_none cfg'
      { f with createBucket := none, putEncryption := none,
                 putVersioning := none, putAcceleration := none } _ th1 rfl
    have th3 := versioningStep_thrown_none cfg'
      { f with createBucket := none, putEncryption := none,
                 putVersioning := none, putAcceleration := none } _ th2 rfl
    have th4 := accelerationStep_thrown_none cfg'
      { f with createBucket := none, putEncryption := none,
                 putVersioning := none, putAcceleration := none } _ th3 rfl
    rw [applyDeploymentBucket_calls, runBody,
      policyStep_putPol_filter cfg' _ _ th4,
      accelerationStep_filter cfg' _ _ S3Call.isPutPolicy (fun a => rfl) (fun a b => rfl),
      versioningStep_filter cfg' _ _ S3Call.isPutPolicy (fun a => rfl) (fun a b => rfl),
      encryptionStep_filter cfg' _ _ S3Call.isPutPolicy (fun a => rfl) (fun a b => rfl),
      existenceStep_filter cfg' _ _ S3Call.isPutPolicy
        (fun a => rfl) (fun a => rfl) (fun a b => rfl)]
    simp [initState]
  refine ⟨main cfg, ?_, ?_⟩
  · rw [main { cfg with policy := some (Js.obj fs) }]
    simp [Js.truthy]
  · rw [applyDeploymentBucket_calls, runBody,
      policyStep_filter cfg f _ S3Call.isGetPolicy (fun a b => rfl),
      accelerationStep_filter cfg f _ S3Call.isGetPolicy (fun a => rfl) (fun a b => rfl),
      versioningStep_filter cfg f _ S3Call.isGetPolicy (fun a => rfl) (fun a b => rfl),
      encryptionStep_filter cfg f _ S3Call.isGetPolicy (fun a => rfl) (fun a b => rfl),
      existenceStep_filter cfg f _ S3Call.isGetPolicy
        (fun a => rfl) (fun a => rfl) (fun a b => rfl)]
    simp [initState]

theorem versioningStep_getVer_filter (cfg : Config) (f : Faults) (s : RunState)
    (hth : s.thrown = none) :
    (versioningStep cfg f s).calls.filter S3Call.isGetVersioning
      = s.calls.filter S3Call.isGetVersioning ++ [S3Call.getBucketVersioning cfg.bucketName] := by
  unfold versioningStep putBucketVersioning
  cases hf : f.putVersioning <;> simp only [hf]
  all_goals repeat' split
  all_goals try simp_all [RunState.emit, List.filter_append, S3Call.isGetVersioning]
  all_goals repeat' split
  all_goals try simp_all [RunState.emit, List.filter_append, S3Call.isGetVersioning]

theorem accelerationStep_getAcc_filter (cfg : Config) (f : Faults) (s : RunState)
    (hth : s.thrown = none) :
    (accelerationStep cfg f s).calls.filter S3Call.isGetAcceleration
      = s.calls.filter S3Call.isGetAcceleration
        ++ [S3Call.getBucketAccelerateConfiguration cfg.bucketName] := by
  unfold accelerationStep putBucketAcceleration
  cases hf : f.putAcceleration <;> simp only [hf]
  all_goals repeat' split
  all_goals try simp_all [RunState.emit, List.filter_append, S3Call.isGetAcceleration]
  all_goals repeat' split
  all_goals try simp_all [RunState.emit, List.filter_append, S3Call.isGetAcceleration]

/-- C8: a wait failure is folded to `false` and logged, never raised:
`waitFor` with an injected wait fault returns `false` together with the
`Unable to wait for …` log line, and a run that creates the bucket under
a failing waiter still reports no error block, still carries the wait
log line, and still performs the subsequent facet steps (the versioning
and acceleration reads both happen). -/
theorem wait_failure_nonfatal (cfg : Config) (w : World) (f : Faults) (name state msg : String) :
    waitFor w { f with wait := some msg } name state
      = (false, ["Unable to wait for \x27" ++ state ++ "\x27 - " ++ msg])
    ∧ (applyDeploymentBucket cfg { w with present := false }
        { noFaults with wait := some msg }).errors = []
    ∧ ("Unable to wait for \x27bucketExists\x27 - " ++ msg)
        ∈ (applyDeploymentBucket cfg { w with present := false }
            { noFaults with wait := some msg }).logs
    ∧ (applyDeploymentBucket cfg { w with present := false }
        { noFaults with wait := some msg }).calls.filter S3Call.isGetVersioning
      = [S3Call.getBucketVersioning cfg.bucketName]
    ∧ (applyDeploymentBucket cfg { w with present := false }
        { noFaults with wait := some msg }).calls.filter S3Call.isGetAcceleration
      = [S3Call.getBucketAccelerateConfiguration cfg.bucketName] := by
  have th1 := existenceStep_thrown_none cfg { noFaults with wait := some msg }
    (initState { w with present := false }) rfl rfl
  have th2 := encryptionStep_thrown_none cfg { noFaults with wait := some msg } _ th1 rfl
  have th3 := versioningStep_thrown_none cfg { noFaults with wait := some msg } _ th2 rfl
  have th4 := accelerationStep_thrown_none cfg { noFaults with wait := some msg } _ th3 rfl
  have th5 := policyStep_thrown_none cfg { noFaults with wait := some msg } _ th4 rfl
  have h1 := existenceStep_create_ok cfg { noFaults with wait := some msg }
    (initState { w with present := false }) rfl (by simp [initState, noFaults]) rfl
  refine ⟨by simp [waitFor, waitFailLogs], ?_, ?_, ?_, ?_⟩
  · simp only [applyDeploymentBucket]
    rw [show (runBody cfg { noFaults with wait := some msg } { w with present := false }).thrown
        = none from th5]
  · rw [applyDeploymentBucket_logs, runBody]
    refine policyStep_logs_mono _ _ _ _ (accelerationStep_logs_mono _ _ _ _
      (versioningStep_logs_mono _ _ _ _ (encryptionStep_logs_mono _ _ _ _ ?_)))
    rw [h1]
    simp [initState, waitFailLogs, noFaults]
  · rw [applyDeploymentBucket_calls, runBody,
      policyStep_filter cfg _ _ S3Call.isGetVersioning (fun a b => rfl),
      accelerationStep_filter cfg _ _ S3Call.isGetVersioning (fun a => rfl) (fun a b => rfl),
      versioningStep_getVer_filter cfg _ _ th2,
      encryptionStep_filter cfg _ _ S3Call.isGetVersioning (fun a => rfl) (fun a b => rfl),
      existenceStep_filter cfg _ _ S3Call.isGetVersioning
        (fun a => rfl) (fun a => rfl) (fun a b => rfl)]
    simp [initState]
  · rw [applyDeploymentBucket_calls, runBody,
      policyStep_filter cfg _ _ S3Call.isGetAcceleration (fun a b => rfl),
      accelerationStep_getAcc_filter cfg _ _ th3,
      versioningStep_filter cfg _ _ S3Call.isGetAcceleration (fun a => rfl) (fun a b => rfl),
      encryptionStep_filter cfg _ _ S3Call.isGetAcceleration (fun a => rfl) (fun a b => rfl),
      existenceStep_filter cfg _ _ S3Call.isGetAcceleration
        (fun a => rfl) (fun a => rfl) (fun a b => rfl)]
    simp [initState]

theorem beq_bool_false_not_undef (e : Js) (h : Js.beq e (.bool false) = true) :
    Js.beq e .undefined = false := by
  cases e <;> simp_all [Js.beq]

/-- C9: the constructor registers the reconciliation hook iff the
`enabled` flag of `custom.deploymentBucket` is not strictly `false` (an
absent flag — `undefined` — registers, i.e. the default is enabled), the
configured deployment-bucket name is truthy, and the processed command
list does not include `'package'`; in particular, with no bucket name the
constructor registers nothing, so reconciliation never runs. -/
theorem hook_registration_gate (versionGte210 : Bool) (serverless : Js) :
    constructorHookRegistered versionGte210 serverless
      = (!(Js.beq ((get (Js.index serverless ("service")) ("custom.deploymentBucket")
              (.obj [])).index ("enabled")) (.bool false))
         && (Js.index (get (Js.index serverless ("service"))
              (if versionGte210 then ("provider.deploymentBucket")
               else ("provider.deploymentBucketObject")) (.obj [])) ("name")).truthy
         && !(jsIncludes (get serverless ("processedInput.commands") (.arr []))
              (.str ("package")))) := by
  unfold constructorHookRegistered
  by_cases h1 : Js.beq ((get (Js.index serverless ("service")) ("custom.deploymentBucket")
      (.obj [])).index ("enabled")) (.bool false) = true
  · simp [h1, beq_bool_false_not_undef _ h1]
  · simp only [Bool.not_eq_true] at h1
    by_cases h2 : (Js.index (get (Js.index serverless ("service"))
        (if versionGte210 then ("provider.deploymentBucket")
         else ("provider.deploymentBucketObject")) (.obj [])) ("name")).truthy = true
    · simp [h1, h2]
    · simp only [Bool.not_eq_true] at h2
      simp [h1, h2]

theorem getGo_falsy (dflt : Js) :
    ∀ (l : List String) (obj : Js), walkFalsy obj l = true → getGo dflt obj l = dflt := by
  intro l
  induction l with
  | nil =>
    intro obj h
    simp [walkFalsy] at h
  | cons s rest ih =>
    intro obj h
    simp only [walkFalsy] at h
    simp only [getGo]
    by_cases hv : (Js.index obj s).truthy
    · simp only [hv, if_true] at h ⊢
      exact ih _ h
    · simp only [Bool.not_eq_true] at hv
      simp [hv]

/-- C10: the configuration lookup helper `get` returns the default
whenever any step of the dotted-path walk — including the final value —
is falsy; consequently a value explicitly set to `false`, `0`, `null`,
the empty string or `undefined` is indistinguishable from an absent key:
all of them make `get` return the default. -/
theorem get_falsy_yields_default (obj dflt : Js) (path : String)
    (h : walkFalsy obj (jsSplitDot path) = true) :
    get obj path dflt = dflt
    ∧ get (Js.obj [(("enabled"), Js.bool false)]) ("enabled") dflt = dflt
    ∧ get (Js.obj []) ("enabled") dflt = dflt
    ∧ get (Js.obj [(("k"), Js.num 0)]) ("k") dflt = dflt
    ∧ get (Js.obj [(("k"), Js.null)]) ("k") dflt = dflt
    ∧ get (Js.obj [(("k"), Js.str (""))]) ("k") dflt = dflt
    ∧ get (Js.obj [(("k"), Js.undefined)]) ("k") dflt = dflt := by
  refine ⟨getGo_falsy dflt _ obj h, rfl, rfl, rfl, rfl, rfl, rfl⟩

theorem versioningStep_putVer_filter (cfg : Config) (f : Faults) (s : RunState)
    (hth : s.thrown = none) :
    (versioningStep cfg f s).calls.filter S3Call.isPutVersioning
      = s.calls.filter S3Call.isPutVersioning
        ++ (if (f.getVersioning.isNone && statusEnabled s.world.versioningStatus)
              != cfg.versioning
            then [S3Call.putBucketVersioning cfg.bucketName (statusWord cfg.versioning)]
            else []) := by
  unfold versioningStep putBucketVersioning
  cases hf : f.putVersioning <;> simp only [hf]
  all_goals repeat' split
  all_goals try simp_all [RunState.emit, List.filter_append, S3Call.isPutVersioning]
  all_goals repeat' split
  all_goals try simp_all [RunState.emit, List.filter_append, S3Call.isPutVersioning]

theorem accelerationStep_putAcc_filter (cfg : Config) (f : Faults) (s : RunState)
    (hth : s.thrown = none) :
    (accelerationStep cfg f s).calls.filter S3Call.isPutAcceleration
      = s.calls.filter S3Call.isPutAcceleration
        ++ (if (f.getAcceleration.isNone && statusEnabled s.world.accelerationStatus)
              != cfg.accelerate
            then [S3Call.putBucketAccelerateConfiguration cfg.bucketName
              (statusWord cfg.accelerate)]
            else []) := by
  unfold accelerationStep putBucketAcceleration
  cases hf : f.putAcceleration <;> simp only [hf]
  all_goals repeat' split
  all_goals try simp_all [RunState.emit, List.filter_append, S3Call.isPutAcceleration]
  all_goals repeat' split
  all_goals try simp_all [RunState.emit, List.filter_append, S3Call.isPutAcceleration]

theorem run_putVer_filter (cfg : Config) (w : World) (f : Faults)
    (hcr : f.createBucket = none) (hpe : f.putEncryption = none) :
    (applyDeploymentBucket cfg w f).calls.filter S3Call.isPutVersioning
      = (if (f.getVersioning.isNone && statusEnabled w.versioningStatus) != cfg.versioning
         then [S3Call.putBucketVersioning cfg.bucketName (statusWord cfg.versioning)]
         else []) := by
  have th1 := existenceStep_thrown_none cfg f (initState w) rfl hcr
  have th2 := encryptionStep_thrown_none cfg f _ th1 hpe
  have hv1 : (existenceStep cfg f (initState w)).world.versioningStatus = w.versioningStatus :=
    (existenceStep_world_frame cfg f _).2.1
  have hv2 : (encryptionStep cfg f (existenceStep cfg f (initState w))).world.versioningStatus
      = w.versioningStatus := by
    rw [(encryptionStep_world_frame cfg f _).2.1, hv1]
  rw [applyDeploymentBucket_calls, runBody,
    policyStep_filter cfg f _ S3Call.isPutVersioning (fun a b => rfl),
    accelerationStep_filter cfg f _ S3Call.isPutVersioning (fun a => rfl) (fun a b => rfl),
    versioningStep_putVer_filter cfg f _ th2,
    encryptionStep_filter cfg f _ S3Call.isPutVersioning (fun a => rfl) (fun a b => rfl),
    existenceStep_filter cfg f _ S3Call.isPutVersioning
      (fun a => rfl) (fun a => rfl) (fun a b => rfl), hv2]
  simp [initState]

theorem run_putAcc_filter (cfg : Config) (w : World) (f : Faults)
    (hcr : f.createBucket = none) (hpe : f.putEncryption = none)
    (hpv : f.putVersioning = none) :
    (applyDeploymentBucket cfg w f).calls.filter S3Call.isPutAcceleration
      = (if (f.getAcceleration.isNone && statusEnabled w.accelerationStatus) != cfg.accelerate
         then [S3Call.putBucketAccelerateConfiguration cfg.bucketName
           (statusWord cfg.accelerate)]
         else []) := by
  have th1 := existenceStep_thrown_none cfg f (initState w) rfl hcr
  have th2 := encryptionStep_thrown_none cfg f _ th1 hpe
  have th3 := versioningStep_thrown_none cfg f _ th2 hpv
  have ha1 : (existenceStep cfg f (initState w)).world.accelerationStatus
      = w.accelerationStatus := (existenceStep_world_frame cfg f _).2.2
  have ha2 : (encryptionStep cfg f (existenceStep cfg f (initState w))).world.accelerationStatus
      = w.accelerationStatus := by
    rw [(encryptionStep_world_frame cfg f _).2.2, ha1]
  have ha3 : (versioningStep cfg f (encryptionStep cfg f (existenceStep cfg f
      (initState w)))).world.accelerationStatus = w.accelerationStatus := by
    rw [(versioningStep_world_frame cfg f _).2.2, ha2]
  rw [applyDeploymentBucket_calls, runBody,
    policyStep_filter cfg f _ S3Call.isPutAcceleration (fun a b => rfl),
    accelerationStep_putAcc_filter cfg f _ th3,
    versioningStep_filter cfg f _ S3Call.isPutAcceleration (fun a => rfl) (fun a b => rfl),
    encryptionStep_filter cfg f _ S3Call.isPutAcceleration (fun a => rfl) (fun a b => rfl),
    existenceStep_filter cfg f _ S3Call.isPutAcceleration
      (fun a => rfl) (fun a => rfl) (fun a b => rfl), ha3]
  simp [initState]

theorem run_world_versioning (cfg : Config) (w : World) :
    statusEnabled (applyDeploymentBucket cfg w noFaults).world.versioningStatus
      = cfg.versioning := by
  have th1 := existenceStep_thrown_none cfg noFaults (initState w) rfl rfl
  have th2 := encryptionStep_thrown_none cfg noFaults _ th1 rfl
  rw [applyDeploymentBucket_world, runBody,
    (policyStep_world_frame cfg noFaults _).2.2.1,
    (accelerationStep_world_frame cfg noFaults _).2.2]
  by_cases hv : hasBucketVersioning (encryptionStep cfg noFaults (existenceStep cfg noFaults
      (initState w))).world noFaults cfg.bucketName = cfg.versioning
  · rw [versioningStep_noop cfg noFaults _ th2 hv]
    simp only [hasBucketVersioning_eq, noFaults] at hv
    simpa using hv
  · rw [versioningStep_put_ok cfg noFaults _ th2 hv rfl]
    simp

theorem run_world_acceleration (cfg : Config) (w : World) :
    statusEnabled (applyDeploymentBucket cfg w noFaults).world.accelerationStatus
      = cfg.accelerate := by
  have th1 := existenceStep_thrown_none cfg noFaults (initState w) rfl rfl
  have th2 := encryptionStep_thrown_none cfg noFaults _ th1 rfl
  have th3 := versioningStep_thrown_none cfg noFaults _ th2 rfl
  rw [applyDeploymentBucket_world, runBody,
    (policyStep_world_frame cfg noFaults _).2.2.2]
  by_cases ha : hasBucketAcceleration (versioningStep cfg noFaults (encryptionStep cfg noFaults
      (existenceStep cfg noFaults (initState w)))).world noFaults cfg.bucketName
      = cfg.accelerate
  · rw [accelerationStep_noop cfg noFaults _ th3 ha]
    simp only [hasBucketAcceleration_eq, noFaults] at ha
    simpa using ha
  · rw [accelerationStep_put_ok cfg noFaults _ th3 ha rfl]
    simp

/-- C1: on a fault-free run, `putBucketVersioning` is issued iff the
observed versioning status (as the `hasBucketVersioning` reader reports
it) differs from `config.versioning`, and likewise for acceleration;
after the run the observed status of both facets equals the configured
value; and a second fault-free run with the same configuration issues
zero further versioning or acceleration mutations (idempotence). -/
theorem versioning_acceleration_convergence (cfg : Config) (w : World) :
    ((applyDeploymentBucket cfg w noFaults).calls.filter S3Call.isPutVersioning
      = (if hasBucketVersioning w noFaults cfg.bucketName != cfg.versioning
         then [S3Call.putBucketVersioning cfg.bucketName (statusWord cfg.versioning)]
         else []))
    ∧ ((applyDeploymentBucket cfg w noFaults).calls.filter S3Call.isPutAcceleration
      = (if hasBucketAcceleration w noFaults cfg.bucketName != cfg.accelerate
         then [S3Call.putBucketAccelerateConfiguration cfg.bucketName
           (statusWord cfg.accelerate)]
         else []))
    ∧ hasBucketVersioning (applyDeploymentBucket cfg w noFaults).world noFaults cfg.bucketName
        = cfg.versioning
    ∧ hasBucketAcceleration (applyDeploymentBucket cfg w noFaults).world noFaults
        cfg.bucketName = cfg.accelerate
    ∧ (applyDeploymentBucket cfg (applyDeploymentBucket cfg w noFaults).world
        noFaults).calls.filter S3Call.isPutVersioning = []
    ∧ (applyDeploymentBucket cfg (applyDeploymentBucket cfg w noFaults).world
        noFaults).calls.filter S3Call.isPutAcceleration = [] := by
  refine ⟨?_, ?_, ?_, ?_, ?_, ?_⟩
  · rw [run_putVer_filter cfg w noFaults rfl rfl, hasBucketVersioning_eq]
  · rw [run_putAcc_filter cfg w noFaults rfl rfl rfl, hasBucketAcceleration_eq]
  · rw [hasBucketVersioning_eq, run_world_versioning cfg w]
    simp [noFaults]
  · rw [hasBucketAcceleration_eq, run_world_acceleration cfg w]
    simp [noFaults]
  · rw [run_putVer_filter cfg _ noFaults rfl rfl, run_world_versioning cfg w]
    simp [noFaults]
  · rw [run_putAcc_filter cfg _ noFaults rfl rfl rfl, run_world_acceleration cfg w]
    simp [noFaults]

/-- Witness for C2: a concrete absent bucket is created and waited for
first, and a concrete present bucket triggers neither call. -/
theorem create_then_wait_gate_witness :
    bucketExists {} noFaults ("b2") = false
    ∧ (applyDeploymentBucket { bucketName := ("b2") } {} noFaults).calls.take 3
        = [S3Call.headBucket ("b2"), S3Call.createBucket ("b2"),
           S3Call.waitFor ("b2") ("bucketExists")]
    ∧ bucketExists { present := true } noFaults ("b1") = true
    ∧ (applyDeploymentBucket { bucketName := ("b1") } { present := true }
        noFaults).calls.filter S3Call.isCreate = [] :=
  ⟨rfl, ((create_then_wait_gate { bucketName := ("b2") } {} noFaults).1 rfl rfl).1,
   rfl, ((create_then_wait_gate { bucketName := ("b1") } { present := true } noFaults).2 rfl).1⟩

/-- Witness for C3: on a concrete unencrypted bucket with `AES256`
requested, exactly one `putBucketEncryption` is issued. -/
theorem encryption_applied_iff_unset_witness :
    (applyDeploymentBucket { bucketName := ("b"), serverSideEncryption := some ("AES256") }
      {} noFaults).calls.filter S3Call.isPutEncryption
      = [S3Call.putBucketEncryption ("b") ("AES256")] := by
  have h := (encryption_applied_iff_unset
    { bucketName := ("b"), serverSideEncryption := some ("AES256") } {} noFaults).1 rfl
  simpa [optStrTruthy, noFaults] using h

/-- Witness for C10: a key explicitly set to `false` makes the walk falsy
and `get` returns the default. -/
theorem get_falsy_yields_default_witness :
    walkFalsy (Js.obj [(("a"), Js.bool false)]) (jsSplitDot ("a")) = true
    ∧ get (Js.obj [(("a"), Js.bool false)]) ("a") (Js.str ("D")) = Js.str ("D") :=
  ⟨rfl, (get_falsy_yields_default (Js.obj [(("a"), Js.bool false)]) (Js.str ("D")) ("a")
    rfl).1⟩
